import Mathlib

/-!
Verification of the MultiAssetOFX security-code classification and
price-resolution pipeline.

The development shallowly embeds the relevant parts of the program:

* `classify_security` embeds `classify_security` of `routes.py` (lines
  205-223): regexes become explicit, executable checks over the string's
  character list.
* `fetch_price` embeds `PriceFetcher.fetch_price` of
  `services/price_fetcher.py` (lines 18-45): the retry loop over
  `range(self.max_retries)` is modelled with an explicit fuel
  argument equal to the number of remaining loop iterations; the
  result also carries instrumentation (iterations run, network calls
  made, sleeps performed).  A Python function that falls off the end
  of the loop returns `None`, which the model renders as `none`.
* `fetch_japanese_stock` / `fetch_us_stock` embed
  `_fetch_japanese_stock` and `_fetch_us_stock` (lines 47-123).  The
  external yfinance calls become explicit inputs: a `history` outcome
  (an exception, or a list of close prices of the rows of the one-day
  window) and an `info` outcome (an exception, or the pair of optional
  `longName`/`shortName` values).  Close prices are modelled as
  rationals; `f"{x:.2f}"` becomes `formatFixed2` (round-half-even to
  two decimal places).
* `fetch_japanese_mutual_fund` embeds `_fetch_japanese_mutual_fund`
  (lines 125-294) and `fetch_latest_nav_from_page` embeds
  `_fetch_latest_nav_from_page` (lines 296-330).  Network requests and
  the regex/HTML extraction primitives of `requests`, `BeautifulSoup`
  and `re` become an explicit environment (`MFEnv`, `MFPage`): the page
  fetch yields an exception or a status code together with the parsed
  page (title text, extracted `associFundCd`, and the `findall`
  capture list the fallback scrapes); the CSV fetch yields an
  exception or a status code together with the parsed rows (or `none`
  when decoding/parsing raised).  The CSV header search, column
  mapping, date-row scan and NAV parsing are embedded concretely.

Python string primitives are modelled for the ASCII fragment the code
relies on: `str.strip` as dropping ASCII whitespace on both ends,
`str.replace(',', '')` as removing all commas, `str.isdigit` as
"nonempty and all ASCII digits", `str(int)` as `pyIntStr`.
-/

/-- Result dictionary shape shared by every adapter path:
`name`/`price`/`currency` keys plus the optional `error` key. -/
structure PriceRecord where
  name : String
  price : String
  currency : String
  error : Option String := none
  deriving Repr, DecidableEq

/-! ## Code classifier (`routes.py` lines 205-223) -/

/-- Character class `[0-9A-Z]` of the classifier regexes. -/
def isUpperAlnum (c : Char) : Bool :=
  c.isDigit || c.isUpper

/-- Regex `^\d{4}\.(T|O|N|F|S)$` (routes.py line 208): four digits, a
dot, and one of the five market suffix letters. -/
def matchJpStock (s : String) : Bool :=
  (s.data.length == 6) &&
  (s.data.take 4).all Char.isDigit &&
  (s.data.getD 4 ' ' == '.') &&
  (s.data.getD 5 ' ' == 'T' || s.data.getD 5 ' ' == 'O' ||
   s.data.getD 5 ' ' == 'N' || s.data.getD 5 ' ' == 'F' ||
   s.data.getD 5 ' ' == 'S')

/-- Regex `^[0-9A-Z]{8}$` (routes.py line 212): 8-character
alphanumeric association codes. -/
def matchAlnum8 (s : String) : Bool :=
  (s.data.length == 8) && s.data.all isUpperAlnum

/-- Regex `^\d{6,8}$` (routes.py line 216): legacy 6-8 digit numeric
codes. -/
def matchDigits6to8 (s : String) : Bool :=
  decide (6 ≤ s.data.length) && decide (s.data.length ≤ 8) &&
  s.data.all Char.isDigit

/-- Character class `[A-Z0-9\.-]` of the US-ticker regex. -/
def usTickerChar (c : Char) : Bool :=
  isUpperAlnum c || c == '.' || c == '-'

/-- Regex `^[A-Z][A-Z0-9\.-]{0,9}$` (routes.py line 220): an uppercase
letter followed by up to nine ticker characters. -/
def matchUsStock (s : String) : Bool :=
  match s.data with
  | [] => false
  | c :: rest => c.isUpper && decide (rest.length ≤ 9) && rest.all usTickerChar

/-- Embeds `classify_security` (routes.py lines 205-223): the four
regex rules tried in order, first match wins. -/
def classify_security (code : String) : String :=
  if matchJpStock code then "JP_STOCK"
  else if matchAlnum8 code then "JP_MUTUALFUND"
  else if matchDigits6to8 code then "JP_MUTUALFUND"
  else if matchUsStock code then "US_STOCK"
  else "INVALID"

theorem matchJpStock_false_of_len {s : String} (h : s.data.length ≠ 6) :
    matchJpStock s = false := by
  have h' : s.length ≠ 6 := by rw [← String.length_data]; exact h
  simp [matchJpStock, h']

theorem getD_mem_of_lt {α : Type} (l : List α) (i : Nat) (d : α)
    (h : i < l.length) : l.getD i d ∈ l := by
  induction l generalizing i with
  | nil => simp at h
  | cons a t ih =>
    cases i with
    | zero => simp [List.getD]
    | succ j =>
      simp only [List.getD_cons_succ]
      exact List.mem_cons_of_mem a (ih j (by simpa using h))

theorem matchJpStock_false_of_digits {s : String}
    (h6 : 6 ≤ s.data.length) (hd : ∀ c ∈ s.data, c.isDigit = true) :
    matchJpStock s = false := by
  by_cases hlen : s.data.length = 6
  · have hm : s.data.getD 4 ' ' ∈ s.data :=
      getD_mem_of_lt s.data 4 ' ' (by omega)
    have hdig : (s.data.getD 4 ' ').isDigit = true := hd _ hm
    have hne : (s.data.getD 4 ' ') ≠ '.' := by
      intro hc; rw [hc] at hdig; simp [Char.isDigit] at hdig
    simp only [matchJpStock]
    rw [show ((s.data.getD 4 ' ') == '.') = false from beq_eq_false_iff_ne.mpr hne]
    simp
  · exact matchJpStock_false_of_len hlen

theorem classify_alnum8 {code : String} (h8 : code.data.length = 8)
    (hAl : ∀ c ∈ code.data, isUpperAlnum c = true) :
    classify_security code = "JP_MUTUALFUND" := by
  have h8' : code.length = 8 := by rw [← String.length_data]; exact h8
  have hjp : matchJpStock code = false := matchJpStock_false_of_len (by omega)
  have ha8 : matchAlnum8 code = true := by
    simp only [matchAlnum8, List.all_eq_true, Bool.and_eq_true, beq_iff_eq,
      String.length_data]
    exact ⟨h8', hAl⟩
  simp [classify_security, hjp, ha8]

theorem classify_digits6to8 {code : String}
    (h6 : 6 ≤ code.data.length) (h8 : code.data.length ≤ 8)
    (hd : ∀ c ∈ code.data, c.isDigit = true) :
    classify_security code = "JP_MUTUALFUND" := by
  by_cases hlen : code.data.length = 8
  · exact classify_alnum8 hlen (fun c hc => by
      simp [isUpperAlnum, hd c hc])
  · have hlen' : code.length ≠ 8 := by rw [← String.length_data]; exact hlen
    have h6' : 6 ≤ code.length := by rw [← String.length_data]; exact h6
    have h8' : code.length ≤ 8 := by rw [← String.length_data]; exact h8
    have hjp : matchJpStock code = false := matchJpStock_false_of_digits h6 hd
    have ha8 : matchAlnum8 code = false := by
      simp [matchAlnum8, hlen']
    have hdg : matchDigits6to8 code = true := by
      simp only [matchDigits6to8, List.all_eq_true, Bool.and_eq_true,
        decide_eq_true_eq, String.length_data]
      exact ⟨⟨h6', h8'⟩, hd⟩
    simp [classify_security, hjp, ha8, hdg]

/-- C2 counterexample: the 12-character ISIN-like identifier
`JP1234567890` is classified `INVALID`, not `JP_MUTUALFUND`: none of
the four rules of `classify_security` accepts a 12-character string. -/
theorem c2_isin_counterexample :
    classify_security "JP1234567890" = "INVALID" ∧
    classify_security "JP1234567890" ≠ "JP_MUTUALFUND" := by
  constructor <;> decide

/-- C2 (amended): `classify_security` returns `JP_MUTUALFUND` for
every 8-character alphanumeric association code and for every
6-to-8-digit legacy numeric code; but a 12-character ISIN-like
identifier consisting of `JP` followed by 10 characters is classified
`INVALID`, not `JP_MUTUALFUND`. -/
theorem c2_amended (code : String) :
    (code.data.length = 8 → (∀ c ∈ code.data, isUpperAlnum c = true) →
      classify_security code = "JP_MUTUALFUND") ∧
    (6 ≤ code.data.length → code.data.length ≤ 8 →
      (∀ c ∈ code.data, c.isDigit = true) →
      classify_security code = "JP_MUTUALFUND") ∧
    (∀ rest, code.data = 'J' :: 'P' :: rest → rest.length = 10 →
      classify_security code = "INVALID") := by
  refine ⟨fun h8 hAl => classify_alnum8 h8 hAl,
          fun h6 h8 hd => classify_digits6to8 h6 h8 hd,
          fun rest hdata hlen => ?_⟩
  have hlen12 : code.data.length = 12 := by simp [hdata, hlen]
  have hlen12' : code.length = 12 := by rw [← String.length_data]; exact hlen12
  have hjp : matchJpStock code = false := matchJpStock_false_of_len (by omega)
  have ha8 : matchAlnum8 code = false := by
    simp [matchAlnum8, hlen12']
  have hdg : matchDigits6to8 code = false := by
    simp [matchDigits6to8, hlen12']
  have hus : matchUsStock code = false := by
    simp only [matchUsStock, hdata]
    have : ('P' :: rest).length = 11 := by simp [hlen]
    simp [this]
  simp [classify_security, hjp, ha8, hdg, hus]

/-- Witness for C2 (amended): an 8-character association code and a
7-digit legacy code classify as `JP_MUTUALFUND`, while the ISIN form
classifies as `INVALID`. -/
theorem c2_amended_witness :
    classify_security "0131103B" = "JP_MUTUALFUND" ∧
    classify_security "1234567" = "JP_MUTUALFUND" ∧
    classify_security "JP1234567890" = "INVALID" :=
  ⟨(c2_amended "0131103B").1 (by decide) (by decide),
   (c2_amended "1234567").2.1 (by decide) (by decide) (by decide),
   (c2_amended "JP1234567890").2.2
     ['1', '2', '3', '4', '5', '6', '7', '8', '9', '0'] (by decide) (by decide)⟩

/-- C10: every 8-character string of uppercase letters and digits is
classified `JP_MUTUALFUND` and never `US_STOCK`, because the
8-character alphanumeric rule precedes the US-stock rule in
`classify_security`'s first-match-wins order. -/
theorem c10_alnum8_shadows_us_stock (code : String)
    (h8 : code.data.length = 8)
    (hAl : ∀ c ∈ code.data, isUpperAlnum c = true) :
    classify_security code = "JP_MUTUALFUND" ∧
    classify_security code ≠ "US_STOCK" := by
  have h := classify_alnum8 h8 hAl
  exact ⟨h, by simp [h]⟩

/-- Witness for C10: the purely alphabetic 8-letter ticker `ABCDEFGH`
is classified `JP_MUTUALFUND`, not `US_STOCK`. -/
theorem c10_witness :
    classify_security "ABCDEFGH" = "JP_MUTUALFUND" ∧
    classify_security "ABCDEFGH" ≠ "US_STOCK" :=
  c10_alnum8_shadows_us_stock "ABCDEFGH" (by decide) (by decide)

/-! ## Decimal strings

Models of the Python primitives `str(n)` for a nonnegative `int`, the
fixed two-decimal-place float format `f"{x:.2f}"`, `int(s)` on a digit
string, and a decimal-string parser used to state the "price parses as
a positive decimal" property. -/

/-- ASCII digit character for `n < 10`. -/
def digitChar (n : Nat) : Char := Char.ofNat (48 + n)

/-- Little-endian base-10 digit characters of `n`; `fuel` bounds the
recursion (any `fuel > n` is enough). -/
def toDigitsAux : Nat → Nat → List Char
  | 0, _ => []
  | fuel + 1, n =>
    if n < 10 then [digitChar n]
    else digitChar (n % 10) :: toDigitsAux fuel (n / 10)

/-- Models Python `str(n)` for a nonnegative integer. -/
def pyIntStr (n : Nat) : String := ⟨(toDigitsAux (n + 1) n).reverse⟩

/-- Value of a big-endian ASCII digit string; models Python `int(s)`
on a string of digits. -/
def digitsVal (cs : List Char) : Nat :=
  cs.foldl (fun a c => 10 * a + (c.toNat - 48)) 0

/-- Round half to even (the rounding used by Python's fixed-point
float formatting, idealized over the rationals). -/
def roundHalfEven (q : ℚ) : ℤ :=
  if q - ⌊q⌋ < 1 / 2 then ⌊q⌋
  else if 1 / 2 < q - ⌊q⌋ then ⌊q⌋ + 1
  else if ⌊q⌋ % 2 = 0 then ⌊q⌋ else ⌊q⌋ + 1

/-- Two zero-padded digits of `m < 100`. -/
def pad2 (m : Nat) : List Char := [digitChar (m / 10), digitChar (m % 10)]

/-- Digits of `n` hundredths rendered as `intpart.fracpart`. -/
def renderCents (n : Nat) : List Char :=
  (pyIntStr (n / 100)).data ++ '.' :: pad2 (n % 100)

/-- Models Python `f"{q:.2f}"`: round to a whole number of hundredths
(half to even) and print with exactly two digits after the point. -/
def formatFixed2 (q : ℚ) : String :=
  if roundHalfEven (100 * q) < 0 then
    ⟨'-' :: renderCents (roundHalfEven (100 * q)).natAbs⟩
  else ⟨renderCents (roundHalfEven (100 * q)).natAbs⟩

/-- Splits a character list at the first `'.'` (kept in the second
component). -/
def splitDot : List Char → List Char × List Char
  | [] => ([], [])
  | c :: cs =>
    if c = '.' then ([], c :: cs)
    else ((splitDot cs).1.cons c, (splitDot cs).2)

/-- Parses a nonempty all-digit character list. -/
def parseNatDigits (cs : List Char) : Option Nat :=
  if !cs.isEmpty && cs.all Char.isDigit then some (digitsVal cs) else none

/-- Parses a split decimal string: integer part plus optional dot and
fractional part. -/
def parseDecimalAux : List Char × List Char → Option ℚ
  | (ip, []) => (parseNatDigits ip).map (fun v => (v : ℚ))
  | (ip, _ :: fp) =>
    if fp.any (fun c => c == '.') then none
    else
      match parseNatDigits ip, parseNatDigits fp with
      | some a, some b => some ((a : ℚ) + (b : ℚ) / (10 : ℚ) ^ fp.length)
      | _, _ => none

/-- Parses a decimal string: either `digits` or `digits.digits`. -/
def parseDecimal (s : String) : Option ℚ :=
  parseDecimalAux (splitDot s.data)

/-- True when the string parses as a decimal strictly greater than 0. -/
def parsesPos (s : String) : Bool :=
  match parseDecimal s with
  | some q => decide (0 < q)
  | none => false

/-! ## Price records produced by `PriceFetcher` -/

/-- Record returned for an unrecognized security type
(`price_fetcher.py` lines 29-34). -/
def unknownTypeRecord : PriceRecord :=
  { name := "—", price := "—", currency := "—",
    error := some "不明な銘柄タイプ" }

/-- Number of retry attempts, `self.max_retries`
(`price_fetcher.py` line 15). -/
def maxRetries : Nat := 3

/-- Delay slept between attempts, `self.retry_delay`
(`price_fetcher.py` line 16). -/
def retryDelay : Nat := 1

/-- Record returned after all attempts raised
(`price_fetcher.py` lines 40-45); the message interpolates
`self.max_retries`. -/
def retriesFailRecord : PriceRecord :=
  { name := "—", price := "—", currency := "—",
    error := some ("データ取得失敗（" ++ pyIntStr maxRetries ++ "回試行）") }

/-- Record returned by the equity adapters when the one-day history
window is empty (`price_fetcher.py` lines 59-65 and 98-104). -/
def noDataRecord : PriceRecord :=
  { name := "—", price := "—", currency := "—",
    error := some "指定日のデータが見つかりません（休業日の可能性）" }

/-! ## Equity adapters (`price_fetcher.py` lines 47-123)

The yfinance calls become explicit inputs: `histResult` is the outcome
of `ticker.history(start, end)` for the one-day window — an exception,
or the list of close prices of the returned rows — and `infoResult` is
the outcome of `ticker.info`.  The `Nat` component of the result
counts history network calls (one per invocation, whether it returns
or raises).  The target date only parameterizes the external history
query, so it is absorbed into `histResult`. -/

/-- The `longName`/`shortName` entries of `ticker.info`. -/
structure TickerInfo where
  longName : Option String
  shortName : Option String
  deriving Repr, DecidableEq

/-- Second stage of the Python truthiness chain
`info.get('shortName') or code`. -/
def pyOrName2 (shortN : Option String) (code : String) : String :=
  match shortN with
  | some t => if t = "" then code else t
  | none => code

/-- Models Python truthiness chaining
`info.get('longName') or info.get('shortName') or code`
(`price_fetcher.py` line 72): `None` and `''` fall through. -/
def pyOrName (longN shortN : Option String) (code : String) : String :=
  match longN with
  | some t => if t = "" then pyOrName2 shortN code else t
  | none => pyOrName2 shortN code

/-- Embeds `_fetch_japanese_stock` (`price_fetcher.py` lines 47-84):
empty history returns the no-data record; otherwise the first row's
close is formatted to two decimals, the name falls back to the code
when the info lookup raises or yields no name, and the currency is
fixed `JPY`.  Any history exception is re-raised by the outer
`except` (lines 82-84). -/
def fetch_japanese_stock (histResult : Except String (List ℚ))
    (infoResult : Except String TickerInfo) (code : String) :
    Except String PriceRecord × Nat :=
  match histResult with
  | .error e => (.error e, 1)
  | .ok [] => (.ok noDataRecord, 1)
  | .ok (close :: _) =>
    let name :=
      match infoResult with
      | .error _ => code
      | .ok info => pyOrName info.longName info.shortName code
    (.ok { name := name, price := formatFixed2 close, currency := "JPY" }, 1)

/-- Embeds `_fetch_us_stock` (`price_fetcher.py` lines 86-123):
identical to the Japanese path except the fixed `USD` currency tag. -/
def fetch_us_stock (histResult : Except String (List ℚ))
    (infoResult : Except String TickerInfo) (code : String) :
    Except String PriceRecord × Nat :=
  match histResult with
  | .error e => (.error e, 1)
  | .ok [] => (.ok noDataRecord, 1)
  | .ok (close :: _) =>
    let name :=
      match infoResult with
      | .error _ => code
      | .ok info => pyOrName info.longName info.shortName code
    (.ok { name := name, price := formatFixed2 close, currency := "USD" }, 1)

/-! ## Retry orchestrator (`price_fetcher.py` lines 18-45) -/

/-- Instrumented outcome of `fetch_price`: the returned dictionary
(`none` when the loop would fall through, i.e. Python's implicit
`None`), the number of loop iterations run, the number of network
calls made, and the number of `time.sleep(self.retry_delay)` calls. -/
structure LoopOut where
  res : Option PriceRecord
  iters : Nat
  net : Nat
  sleeps : Nat
  deriving Repr, DecidableEq

/-- One `try`-body outcome per attempt: either a returned record or a
raised exception, together with the network calls the attempt made. -/
def loopFrom (tb : Nat → Except String PriceRecord × Nat) :
    Nat → Nat → LoopOut
  | _, 0 => ⟨none, 0, 0, 0⟩
  | k, fuel + 1 =>
    match tb k with
    | (.ok r, c) => ⟨some r, 1, c, 0⟩
    | (.error _, c) =>
      if k < maxRetries - 1 then
        ⟨(loopFrom tb (k + 1) fuel).res, (loopFrom tb (k + 1) fuel).iters + 1,
         c + (loopFrom tb (k + 1) fuel).net, (loopFrom tb (k + 1) fuel).sleeps + 1⟩
      else ⟨some retriesFailRecord, 1, c, 0⟩

/-- The three dispatch branches of `fetch_price` that invoke an
adapter (`price_fetcher.py` lines 22-27). -/
def knownSecurityType (securityType : String) : Bool :=
  securityType == "JP_STOCK" || securityType == "US_STOCK" ||
  securityType == "JP_MUTUALFUND"

/-- Embeds `PriceFetcher.fetch_price` (`price_fetcher.py` lines
18-45): `for attempt in range(self.max_retries)` dispatches on the
security type; an unknown type returns the placeholder record inside
the first iteration; a raised exception sleeps and retries, or after
the last attempt returns the failure record. -/
def fetch_price (securityType : String)
    (tb : Nat → Except String PriceRecord × Nat) : LoopOut :=
  loopFrom
    (fun k => if knownSecurityType securityType then tb k
              else (.ok unknownTypeRecord, 0))
    0 maxRetries

theorem loopFrom_res_isSome (tb : Nat → Except String PriceRecord × Nat) :
    ∀ fuel k, k + fuel = maxRetries → 0 < fuel →
      (loopFrom tb k fuel).res.isSome := by
  intro fuel
  induction fuel with
  | zero => intro k _ h0; omega
  | succ f ih =>
    intro k hk _
    rcases h : tb k with ⟨e | r, c⟩
    · simp only [loopFrom, h]
      by_cases hcond : k < maxRetries - 1
      · rw [if_pos hcond]
        have hm : maxRetries = 3 := rfl
        exact ih (k + 1) (by omega) (by omega)
      · rw [if_neg hcond]
        simp
    · simp [loopFrom, h]

/-- C1: for every security type string and every behavior of the
dispatched adapter (any sequence of returned records or raised
exceptions, covering malformed codes, unknown types, unreachable
hosts and empty responses), `fetch_price` never raises and always
returns a price record: the loop never falls through to Python's
implicit `None`. -/
theorem c1_fetch_price_total (securityType : String)
    (tb : Nat → Except String PriceRecord × Nat) :
    (fetch_price securityType tb).res.isSome := by
  unfold fetch_price
  exact loopFrom_res_isSome _ maxRetries 0 rfl (by decide)

/-- C5: when the adapter raises on every attempt, `fetch_price` runs
exactly 3 iterations (never a fourth), sleeps the fixed 1-unit delay
between consecutive attempts (2 sleeps), and returns the failure
record whose message mentions `3`. -/
theorem c5_retries_exhausted (securityType : String)
    (hknown : knownSecurityType securityType = true)
    (msg : Nat → String) (calls : Nat → Nat) :
    fetch_price securityType (fun k => (.error (msg k), calls k)) =
      ⟨some retriesFailRecord, 3, calls 0 + (calls 1 + calls 2), 2⟩ ∧
    retriesFailRecord.error = some "データ取得失敗（3回試行）" ∧
    "データ取得失敗（3回試行）".data.contains '3' = true ∧
    retryDelay = 1 := by
  refine ⟨?_, by decide, by decide, rfl⟩
  simp [fetch_price, hknown, loopFrom, maxRetries]

/-- Witness for C5: a concrete always-raising adapter making one
network call per attempt yields the failure record after 3 attempts,
3 network calls and 2 sleeps. -/
theorem c5_witness :
    fetch_price "JP_STOCK" (fun _ => (.error "ConnectionError", 1)) =
      ⟨some retriesFailRecord, 3, 3, 2⟩ ∧
    retriesFailRecord.error = some "データ取得失敗（3回試行）" := by
  have h := c5_retries_exhausted "JP_STOCK" (by decide)
    (fun _ => "ConnectionError") (fun _ => 1)
  exact ⟨h.1, h.2.1⟩

/-- C6: when the quote provider returns an empty result set for the
one-day window, `fetch_price` for a Japanese stock returns the single
no-data record in one iteration with exactly one history network call
and no sleep: the empty result is returned, not retried. -/
theorem c6_empty_window_no_retry (code : String)
    (infoResult : Except String TickerInfo) :
    fetch_price "JP_STOCK"
        (fun _ => fetch_japanese_stock (.ok []) infoResult code) =
      ⟨some noDataRecord, 1, 1, 0⟩ ∧
    noDataRecord.error = some "指定日のデータが見つかりません（休業日の可能性）" ∧
    noDataRecord.price = "—" ∧ noDataRecord.currency = "—" := by
  refine ⟨?_, by decide, by decide, by decide⟩
  simp [fetch_price, knownSecurityType, fetch_japanese_stock, loopFrom, maxRetries]

/-- C8: for both equity adapters, when the history window has rows but
the name lookup raises, the returned record uses the raw code as the
name, formats the first close to two decimal places, and carries no
error — the priced result is not downgraded. -/
theorem c8_name_failure_keeps_price (code : String) (close : ℚ)
    (rest : List ℚ) (e e2 : String) :
    fetch_japanese_stock (.ok (close :: rest)) (.error e) code =
      (.ok { name := code, price := formatFixed2 close,
             currency := "JPY", error := none }, 1) ∧
    fetch_us_stock (.ok (close :: rest)) (.error e2) code =
      (.ok { name := code, price := formatFixed2 close,
             currency := "USD", error := none }, 1) ∧
    (∃ pre a b, (formatFixed2 close).data = pre ++ ['.', a, b] ∧
      a.isDigit = true ∧ b.isDigit = true) := by
  refine ⟨rfl, rfl, ?_⟩
  have hdig : ∀ m : Nat, m < 10 → (digitChar m).isDigit = true := by
    decide
  have hm10 : (roundHalfEven (100 * close)).natAbs % 100 / 10 < 10 := by
    omega
  have hm1 : (roundHalfEven (100 * close)).natAbs % 100 % 10 < 10 := by
    omega
  unfold formatFixed2
  by_cases hneg : roundHalfEven (100 * close) < 0
  · refine ⟨'-' :: (pyIntStr ((roundHalfEven (100 * close)).natAbs / 100)).data,
      digitChar ((roundHalfEven (100 * close)).natAbs % 100 / 10),
      digitChar ((roundHalfEven (100 * close)).natAbs % 100 % 10),
      ?_, hdig _ hm10, hdig _ hm1⟩
    simp [hneg, renderCents, pad2]
  · refine ⟨(pyIntStr ((roundHalfEven (100 * close)).natAbs / 100)).data,
      digitChar ((roundHalfEven (100 * close)).natAbs % 100 / 10),
      digitChar ((roundHalfEven (100 * close)).natAbs % 100 % 10),
      ?_, hdig _ hm10, hdig _ hm1⟩
    simp [hneg, renderCents, pad2]

/-! ## Python string primitives used by the mutual-fund adapter -/

/-- ASCII whitespace stripped by Python `str.strip()`. -/
def isPyWhitespace (c : Char) : Bool :=
  c == ' ' || c == '\t' || c == '\n' || c == '\r' || c == '\x0b' || c == '\x0c'

/-- Models Python `s.strip()` (over the ASCII fragment). -/
def pyStrip (s : String) : String :=
  ⟨((s.data.dropWhile isPyWhitespace).reverse.dropWhile isPyWhitespace).reverse⟩

/-- Models Python `s.replace(',', '')`. -/
def stripCommas (s : String) : String :=
  ⟨s.data.filter (fun c => c != ',')⟩

/-- Models Python `s.isdigit()` (over the ASCII fragment): nonempty
and all digits. -/
def pyIsDigit (s : String) : Bool :=
  !s.data.isEmpty && s.data.all Char.isDigit

/-- Substring test on character lists (Python `pat in s`). -/
def listHasSub (p : List Char) : List Char → Bool
  | [] => p.isEmpty
  | c :: cs => p.isPrefixOf (c :: cs) || listHasSub p cs

/-- Models Python `pat in s`. -/
def hasSub (s pat : String) : Bool := listHasSub pat.data s.data

/-- Characters before the first occurrence of `p`; models
`s.split(sep)[0]` for a nonempty separator. -/
def takeUntilSub (p : List Char) : List Char → List Char
  | [] => []
  | c :: cs => if p.isPrefixOf (c :: cs) then [] else c :: takeUntilSub p cs

/-! ## Mutual fund adapter (`price_fetcher.py` lines 125-330)

The `requests`/`BeautifulSoup`/`re` effects become an explicit
environment.  `MFPage` carries what the code extracts from the fetched
detail page: the stripped `<title>` text (`none` when the tag is
absent), the `associFundCd` recovered by the CSV-link scan or the raw
page-content scan (lines 181-197), and the capture list the
latest-NAV fallback's `re.findall` calls produce (lines 302-307).
`MFEnv` gives the outcome of each of the two `requests.get` calls: an
exception (`NetErr`) or a status code with the payload; for the CSV
request the payload is the parsed row list, or `none` when
decoding/`csv`-parsing raised (handled at lines 272-274). -/

/-- Exceptions a `requests.get` stage can raise:
`requests.exceptions.Timeout`, `requests.exceptions.RequestException`,
or any other exception (re-raised by lines 292-294). -/
inductive NetErr where
  | timeout
  | reqExn (msg : String)
  | other (msg : String)
  deriving Repr, DecidableEq

/-- Extraction results of the fund detail page. -/
structure MFPage where
  title : Option String
  assocFundCd : Option String
  navPatterns : List String
  deriving Repr, DecidableEq

/-- Outcomes of the two network requests of the adapter. -/
structure MFEnv where
  pageFetch : Except NetErr (Nat × MFPage)
  csvFetch : Except NetErr (Nat × Option (List (List String)))

/-- Regex `^JP[0-9A-Z]{10}$` (`price_fetcher.py` line 133). -/
def matchIsin (s : String) : Bool :=
  match s.data with
  | 'J' :: 'P' :: rest => (rest.length == 10) && rest.all isUpperAlnum
  | _ => false

/-- Record for an invalid ISIN shape (`price_fetcher.py` lines
134-139); returned before any network call. -/
def isinFormatRecord (code : String) : PriceRecord :=
  { name := "投資信託 " ++ code, price := "—", currency := "—",
    error := some "ISINコード形式が正しくありません（JP + 10桁の英数字）" }

/-- Record for `requests.exceptions.Timeout`
(`price_fetcher.py` lines 276-283). -/
def timeoutRecord (code : String) : PriceRecord :=
  { name := "投資信託 " ++ code, price := "—", currency := "—",
    error := some "接続がタイムアウトしました" }

/-- Record for `requests.exceptions.RequestException`
(`price_fetcher.py` lines 284-291). -/
def requestErrorRecord (code msg : String) : PriceRecord :=
  { name := "投資信託 " ++ code, price := "—", currency := "—",
    error := some ("ネットワークエラー: " ++ msg) }

/-- Record for a non-200 detail-page response
(`price_fetcher.py` lines 153-160). -/
def httpErrorRecord (code : String) (status : Nat) : PriceRecord :=
  { name := "投資信託 " ++ code, price := "—", currency := "—",
    error := some ("投信協会サイトへのアクセスに失敗しました（HTTP " ++
      pyIntStr status ++ "）") }

/-- Generic site title the name extraction refuses
(`price_fetcher.py` lines 173-177). -/
def genericSiteTitle : String := "投信総合検索ライブラリー"

/-- Fund display-name extraction from the page title
(`price_fetcher.py` lines 164-177). -/
def fundNameOf (code : String) (title : Option String) : String :=
  if ((match title with
      | none => "投資信託 " ++ code
      | some t =>
        if hasSub t "｜" then pyStrip ⟨takeUntilSub "｜".data t.data⟩
        else if hasSub t "|" then pyStrip ⟨takeUntilSub "|".data t.data⟩
        else if t != "" && t != genericSiteTitle then t
        else "投資信託 " ++ code) == "")
     ||
     ((match title with
      | none => "投資信託 " ++ code
      | some t =>
        if hasSub t "｜" then pyStrip ⟨takeUntilSub "｜".data t.data⟩
        else if hasSub t "|" then pyStrip ⟨takeUntilSub "|".data t.data⟩
        else if t != "" && t != genericSiteTitle then t
        else "投資信託 " ++ code) == genericSiteTitle)
  then "投資信託 " ++ code
  else
    match title with
    | none => "投資信託 " ++ code
    | some t =>
      if hasSub t "｜" then pyStrip ⟨takeUntilSub "｜".data t.data⟩
      else if hasSub t "|" then pyStrip ⟨takeUntilSub "|".data t.data⟩
      else if t != "" && t != genericSiteTitle then t
      else "投資信託 " ++ code

/-- Concatenation `''.join(row)` (`price_fetcher.py` line 232). -/
def rowText (row : List String) : String := String.join row

/-- Header-row test of `price_fetcher.py` line 233. -/
def rowHasMarker (row : List String) : Bool :=
  hasSub (rowText row) "年月日" || hasSub (rowText row) "日付" ||
  hasSub (rowText row) "基準価額"

/-- Column-index mapping over the header cells
(`price_fetcher.py` lines 236-240): the last cell containing a date
marker sets the date column, otherwise a cell containing `基準価額`
sets the NAV column. -/
def colScan : List String → Nat → Nat × Nat → Nat × Nat
  | [], _, acc => acc
  | cell :: rest, j, (dc, nc) =>
    if hasSub cell "年月日" || hasSub cell "日付" then colScan rest (j + 1) (j, nc)
    else if hasSub cell "基準価額" then colScan rest (j + 1) (dc, j)
    else colScan rest (j + 1) (dc, nc)

/-- Search for the first header row (`price_fetcher.py` lines
229-241): a row with at least two cells whose concatenated text
contains one of the markers. -/
def findHeaderAux : List (List String) → Nat → Option (Nat × Nat × Nat)
  | [], _ => none
  | row :: rest, i =>
    if decide (2 ≤ row.length) && rowHasMarker row then
      some (i, colScan row 0 (0, 1))
    else findHeaderAux rest (i + 1)

/-- Date column, NAV column and first data-row index
(`price_fetcher.py` lines 225-247: defaults `date_col = 0`,
`nav_col = 1`, `start_idx = header_idx + 1` or `0`). -/
def headerInfo (rows : List (List String)) : Nat × Nat × Nat :=
  match findHeaderAux rows 0 with
  | some (i, dc, nc) => (dc, nc, i + 1)
  | none => (0, 1, 0)

/-- NAV value of a row: the NAV cell with thousands separators
stripped, as an integer (`price_fetcher.py` lines 254-256). -/
def navValOf (navCol : Nat) (row : List String) : Nat :=
  digitsVal (pyStrip (stripCommas (row.getD navCol ""))).data

/-- Data-row scan (`price_fetcher.py` lines 249-262): skip rows that
are too short, return the NAV of the first row whose stripped date
cell equals one of the two target date strings and whose
comma-stripped NAV cell is all digits; rows failing the digit test
are skipped too. -/
def scanRows (dateCol navCol : Nat) (ds1 ds2 : String) :
    List (List String) → Option Nat
  | [] => none
  | row :: rest =>
    if decide (max dateCol navCol < row.length) then
      if pyStrip (row.getD dateCol "") == ds1 ||
         pyStrip (row.getD dateCol "") == ds2 then
        if pyIsDigit (pyStrip (stripCommas (row.getD navCol ""))) then
          some (navValOf navCol row)
        else scanRows dateCol navCol ds1 ds2 rest
      else scanRows dateCol navCol ds1 ds2 rest
    else scanRows dateCol navCol ds1 ds2 rest

/-- Calendar date (no time-of-day component). -/
structure Date where
  year : Nat
  month : Nat
  day : Nat
  deriving Repr, DecidableEq

/-- Models `strftime('%Y/%m/%d')` for 4-digit years. -/
def fmtSlash (d : Date) : String :=
  pyIntStr d.year ++ "/" ++ ⟨pad2 (d.month % 100)⟩ ++ "/" ++ ⟨pad2 (d.day % 100)⟩

/-- Models `strftime('%Y年%m月%d日')` for 4-digit years. -/
def fmtKanji (d : Date) : String :=
  pyIntStr d.year ++ "年" ++ ⟨pad2 (d.month % 100)⟩ ++ "月" ++
  ⟨pad2 (d.day % 100)⟩ ++ "日"

/-- Warning attached by the latest-NAV fallback
(`price_fetcher.py` line 320). -/
def latestNavWarning : String :=
  "最新の基準価額です（指定日のデータではない可能性があります）"

/-- Terminal failure record of the fallback
(`price_fetcher.py` lines 325-330). -/
def navFailRecord (fundName : String) : PriceRecord :=
  { name := fundName, price := "—", currency := "—",
    error := some "基準価額の取得に失敗しました" }

/-- No-data record of the CSV path (`price_fetcher.py` lines
264-270). -/
def dateNotFoundRecord (fundName : String) (d : Date) : PriceRecord :=
  { name := fundName, price := "—", currency := "—",
    error := some ("指定日（" ++ fmtSlash d ++
      "）のデータが見つかりません（休業日の可能性）") }

/-- Embeds `_fetch_latest_nav_from_page` (`price_fetcher.py` lines
296-330): take the first `findall` capture, strip commas and
whitespace, and if it is a digit string whose value lies strictly
between 100 and 1000000, return it as a price together with the
latest-NAV warning; otherwise return the terminal failure record. -/
def fetch_latest_nav_from_page (pg : MFPage) (fundName : String) : PriceRecord :=
  match pg.navPatterns with
  | [] => navFailRecord fundName
  | p :: _ =>
    if pyIsDigit (pyStrip (stripCommas p)) then
      if decide (100 < digitsVal (pyStrip (stripCommas p)).data) &&
         decide (digitsVal (pyStrip (stripCommas p)).data < 1000000) then
        { name := fundName,
          price := pyIntStr (digitsVal (pyStrip (stripCommas p)).data),
          currency := "JPY", error := some latestNavWarning }
      else navFailRecord fundName
    else navFailRecord fundName

/-- Embeds `_fetch_japanese_mutual_fund` (`price_fetcher.py` lines
125-294).  The `Nat` component counts network requests made (detail
page, then CSV).  An invalid ISIN returns immediately with no
request; page/CSV timeouts, request exceptions and non-200 statuses
return error records; other exceptions re-raise; a missing
`associFundCd`, a failed CSV download, an unparseable or empty CSV
fall back to the latest-NAV page scrape; otherwise the CSV rows are
scanned for the target date. -/
def fetch_japanese_mutual_fund (code : String) (d : Date) (env : MFEnv) :
    Except String PriceRecord × Nat :=
  if !matchIsin code then (.ok (isinFormatRecord code), 0)
  else
    match env.pageFetch with
    | .error .timeout => (.ok (timeoutRecord code), 1)
    | .error (.reqExn m) => (.ok (requestErrorRecord code m), 1)
    | .error (.other m) => (.error m, 1)
    | .ok (status, pg) =>
      if status != 200 then (.ok (httpErrorRecord code status), 1)
      else
        match pg.assocFundCd with
        | none => (.ok (fetch_latest_nav_from_page pg (fundNameOf code pg.title)), 1)
        | some _ =>
          match env.csvFetch with
          | .error .timeout => (.ok (timeoutRecord code), 2)
          | .error (.reqExn m) => (.ok (requestErrorRecord code m), 2)
          | .error (.other m) => (.error m, 2)
          | .ok (cstatus, body) =>
            if cstatus != 200 then
              (.ok (fetch_latest_nav_from_page pg (fundNameOf code pg.title)), 2)
            else
              match body with
              | none => (.ok (fetch_latest_nav_from_page pg (fundNameOf code pg.title)), 2)
              | some rows =>
                if rows.isEmpty then
                  (.ok (fetch_latest_nav_from_page pg (fundNameOf code pg.title)), 2)
                else
                  match scanRows (headerInfo rows).1 (headerInfo rows).2.1
                      (fmtSlash d) (fmtKanji d) (rows.drop (headerInfo rows).2.2) with
                  | some v =>
                    (.ok { name := fundNameOf code pg.title, price := pyIntStr v,
                           currency := "JPY", error := none }, 2)
                  | none => (.ok (dateNotFoundRecord (fundNameOf code pg.title) d), 2)

theorem classify_mf_length {code : String}
    (h : classify_security code = "JP_MUTUALFUND") :
    code.data.length ≤ 8 := by
  by_cases h1 : matchJpStock code = true
  · simp [classify_security, h1] at h
  · by_cases h2 : matchAlnum8 code = true
    · have := h2
      simp only [matchAlnum8, Bool.and_eq_true, beq_iff_eq,
        String.length_data] at this
      rw [String.length_data]
      omega
    · by_cases h3 : matchDigits6to8 code = true
      · have := h3
        simp only [matchDigits6to8, Bool.and_eq_true, decide_eq_true_eq,
          String.length_data] at this
        rw [String.length_data]
        omega
      · by_cases h4 : matchUsStock code = true
        · simp [classify_security, h1, h2, h3, h4] at h
        · simp [classify_security, h1, h2, h3, h4] at h

theorem matchIsin_false_of_short {code : String}
    (h : code.data.length ≤ 8) : matchIsin code = false := by
  unfold matchIsin
  split
  · rename_i rest heq
    have hlen : code.data.length = rest.length + 2 := by rw [heq]; rfl
    have hne : rest.length ≠ 10 := by omega
    simp [hne]
  · rfl

/-- C4: every code that `classify_security` labels `JP_MUTUALFUND` (an
8-character alphanumeric code or a 6-to-8-digit numeric code) fails
the mutual-fund adapter's own 12-character ISIN validation, so
`fetch_price` returns the ISIN-format-error record on the first
attempt with zero network calls: the mutual-fund network path is
unreachable through the classify-then-resolve pipeline. -/
theorem c4_mf_network_unreachable (code : String) (d : Date) (env : MFEnv)
    (h : classify_security code = "JP_MUTUALFUND") :
    fetch_japanese_mutual_fund code d env = (.ok (isinFormatRecord code), 0) ∧
    fetch_price "JP_MUTUALFUND"
        (fun _ => fetch_japanese_mutual_fund code d env) =
      ⟨some (isinFormatRecord code), 1, 0, 0⟩ ∧
    (isinFormatRecord code).error =
      some "ISINコード形式が正しくありません（JP + 10桁の英数字）" := by
  have hisin : matchIsin code = false :=
    matchIsin_false_of_short (classify_mf_length h)
  have hadapter :
      fetch_japanese_mutual_fund code d env = (.ok (isinFormatRecord code), 0) := by
    simp [fetch_japanese_mutual_fund, hisin]
  refine ⟨hadapter, ?_, rfl⟩
  simp [fetch_price, knownSecurityType, loopFrom, maxRetries, hadapter]

/-- Witness for C4: the association code `0131103B` classifies as
`JP_MUTUALFUND` and the adapter rejects it with the format-error
record before any network call. -/
theorem c4_witness :
    classify_security "0131103B" = "JP_MUTUALFUND" ∧
    fetch_japanese_mutual_fund "0131103B" ⟨2024, 1, 15⟩
        ⟨.ok (200, ⟨none, none, []⟩), .ok (200, none)⟩ =
      (.ok (isinFormatRecord "0131103B"), 0) :=
  ⟨by decide,
   (c4_mf_network_unreachable "0131103B" ⟨2024, 1, 15⟩
     ⟨.ok (200, ⟨none, none, []⟩), .ok (200, none)⟩ (by decide)).1⟩

/-- C7 counterexample: a timeout during the mutual-fund page fetch
does not raise out of the adapter — it is returned as an error record
and `fetch_price` performs a single attempt with no retry, refuting
the claim that network-class faults trigger a retry for every
instrument type. -/
theorem c7_counterexample :
    fetch_japanese_mutual_fund "JP1234567890" ⟨2024, 1, 15⟩
        ⟨.error .timeout, .ok (200, none)⟩ =
      (.ok (timeoutRecord "JP1234567890"), 1) ∧
    (timeoutRecord "JP1234567890").error = some "接続がタイムアウトしました" ∧
    fetch_price "JP_MUTUALFUND"
        (fun _ => fetch_japanese_mutual_fund "JP1234567890" ⟨2024, 1, 15⟩
          ⟨.error .timeout, .ok (200, none)⟩) =
      ⟨some (timeoutRecord "JP1234567890"), 1, 1, 0⟩ := by
  refine ⟨rfl, rfl, by decide⟩

/-- C7 (amended): network-class faults raise out of the equity
adapters and are retried by the orchestrator (3 attempts), but the
mutual-fund adapter converts timeouts, connection failures and
non-200 responses into error records returned on the first attempt
without any retry; only its unexpected exceptions re-raise and are
retried. -/
theorem c7_amended (histErr : String) (info : Except String TickerInfo)
    (code mfCode m : String) (d : Date)
    (csv : Except NetErr (Nat × Option (List (List String))))
    (status : Nat) (pg : MFPage) :
    (fetch_japanese_stock (.error histErr) info code = (.error histErr, 1) ∧
     fetch_us_stock (.error histErr) info code = (.error histErr, 1) ∧
     fetch_price "JP_STOCK"
         (fun _ => fetch_japanese_stock (.error histErr) info code) =
       ⟨some retriesFailRecord, 3, 3, 2⟩) ∧
    (matchIsin mfCode = true →
      fetch_japanese_mutual_fund mfCode d ⟨.error .timeout, csv⟩ =
        (.ok (timeoutRecord mfCode), 1) ∧
      fetch_japanese_mutual_fund mfCode d ⟨.error (.reqExn m), csv⟩ =
        (.ok (requestErrorRecord mfCode m), 1) ∧
      (status ≠ 200 →
        fetch_japanese_mutual_fund mfCode d ⟨.ok (status, pg), csv⟩ =
          (.ok (httpErrorRecord mfCode status), 1)) ∧
      fetch_price "JP_MUTUALFUND"
          (fun _ => fetch_japanese_mutual_fund mfCode d ⟨.error .timeout, csv⟩) =
        ⟨some (timeoutRecord mfCode), 1, 1, 0⟩) ∧
    (matchIsin mfCode = true →
      fetch_japanese_mutual_fund mfCode d ⟨.error (.other m), csv⟩ =
        (.error m, 1) ∧
      fetch_price "JP_MUTUALFUND"
          (fun _ => fetch_japanese_mutual_fund mfCode d ⟨.error (.other m), csv⟩) =
        ⟨some retriesFailRecord, 3, 3, 2⟩) := by
  refine ⟨⟨rfl, rfl, ?_⟩, fun hisin => ⟨?_, ?_, fun hst => ?_, ?_⟩,
    fun hisin => ⟨?_, ?_⟩⟩
  · simp [fetch_price, knownSecurityType, loopFrom, maxRetries,
      fetch_japanese_stock]
  · simp [fetch_japanese_mutual_fund, hisin]
  · simp [fetch_japanese_mutual_fund, hisin]
  · simp [fetch_japanese_mutual_fund, hisin, hst]
  · simp [fetch_price, knownSecurityType, loopFrom, maxRetries,
      fetch_japanese_mutual_fund, hisin]
  · simp [fetch_japanese_mutual_fund, hisin]
  · simp [fetch_price, knownSecurityType, loopFrom, maxRetries,
      fetch_japanese_mutual_fund, hisin]

/-- Witness for C7 (amended): a 404 on the fund detail page for a
valid ISIN is returned as an HTTP error record, not raised. -/
theorem c7_amended_witness :
    fetch_japanese_mutual_fund "JP1234567890" ⟨2024, 1, 15⟩
        ⟨.ok (404, ⟨none, none, []⟩), .ok (200, none)⟩ =
      (.ok (httpErrorRecord "JP1234567890" 404), 1) :=
  ((c7_amended "e" (.error "e") "7203.T" "JP1234567890" "m" ⟨2024, 1, 15⟩
      (.ok (200, none)) 404 ⟨none, none, []⟩).2.1 (by decide)).2.2.1 (by decide)

/-- Full match condition of one scan step (`price_fetcher.py` lines
250-255): the row is long enough, its stripped date cell equals one of
the two target date strings, and its comma-stripped NAV cell is a
digit string. -/
def rowMatchesDate (dateCol navCol : Nat) (ds1 ds2 : String)
    (row : List String) : Bool :=
  decide (max dateCol navCol < row.length) &&
  (pyStrip (row.getD dateCol "") == ds1 ||
   pyStrip (row.getD dateCol "") == ds2) &&
  pyIsDigit (pyStrip (stripCommas (row.getD navCol "")))

theorem scanRows_cons_match (dateCol navCol : Nat) (ds1 ds2 : String)
    (p : List String) (l : List (List String))
    (hp : rowMatchesDate dateCol navCol ds1 ds2 p = true) :
    scanRows dateCol navCol ds1 ds2 (p :: l) = some (navValOf navCol p) := by
  simp only [rowMatchesDate, Bool.and_eq_true] at hp
  obtain ⟨⟨h1, h2⟩, h3⟩ := hp
  conv_lhs => rw [scanRows]
  rw [if_pos h1, if_pos h2, if_pos h3]

theorem scanRows_cons_skip (dateCol navCol : Nat) (ds1 ds2 : String)
    (p : List String) (l : List (List String))
    (hp : rowMatchesDate dateCol navCol ds1 ds2 p = false) :
    scanRows dateCol navCol ds1 ds2 (p :: l) =
      scanRows dateCol navCol ds1 ds2 l := by
  by_cases hl : max dateCol navCol < p.length
  · have c1 : decide (max dateCol navCol < p.length) = true := decide_eq_true hl
    by_cases hdte : (pyStrip (p.getD dateCol "") == ds1 ||
        pyStrip (p.getD dateCol "") == ds2) = true
    · have hdg : ¬ pyIsDigit (pyStrip (stripCommas (p.getD navCol ""))) = true := by
        intro hc
        have hm : rowMatchesDate dateCol navCol ds1 ds2 p = true := by
          simp only [rowMatchesDate]
          rw [c1, hdte, hc]
          rfl
        simp [hm] at hp
      conv_lhs => rw [scanRows]
      rw [if_pos c1, if_pos hdte, if_neg hdg]
    · conv_lhs => rw [scanRows]
      rw [if_pos c1, if_neg hdte]
  · conv_lhs => rw [scanRows]
    rw [if_neg (by simpa using hl)]

theorem scanRows_append_first (dateCol navCol : Nat) (ds1 ds2 : String)
    (pre : List (List String)) (r : List String) (rest : List (List String))
    (hpre : ∀ row ∈ pre, rowMatchesDate dateCol navCol ds1 ds2 row = false)
    (hr : rowMatchesDate dateCol navCol ds1 ds2 r = true) :
    scanRows dateCol navCol ds1 ds2 (pre ++ r :: rest) =
      some (navValOf navCol r) := by
  induction pre with
  | nil => exact scanRows_cons_match _ _ _ _ _ _ hr
  | cons p ps ih =>
    rw [List.cons_append,
      scanRows_cons_skip _ _ _ _ _ _ (hpre p (List.mem_cons_self p ps))]
    exact ih (fun row hrow => hpre row (List.mem_cons_of_mem p hrow))

theorem scanRows_mem (dateCol navCol : Nat) (ds1 ds2 : String) :
    ∀ (l : List (List String)) (v : Nat),
      scanRows dateCol navCol ds1 ds2 l = some v →
      ∃ row ∈ l, rowMatchesDate dateCol navCol ds1 ds2 row = true ∧
        v = navValOf navCol row := by
  intro l
  induction l with
  | nil => intro v h; simp [scanRows] at h
  | cons p ps ih =>
    intro v h
    rcases Bool.eq_false_or_eq_true (rowMatchesDate dateCol navCol ds1 ds2 p)
      with hp | hp
    · rw [scanRows_cons_match _ _ _ _ _ _ hp] at h
      exact ⟨p, List.mem_cons_self p ps, hp, (Option.some_inj.mp h).symm⟩
    · rw [scanRows_cons_skip _ _ _ _ _ _ hp] at h
      obtain ⟨row, hrow, hm, hv⟩ := ih v h
      exact ⟨row, List.mem_cons_of_mem p hrow, hm, hv⟩

/-- C9: in the mutual-fund CSV path, when the scan region (the rows
after the detected header) has a first row whose stripped date cell
equals the target date in slash or kanji format and whose NAV cell is
all digits after stripping commas, the adapter returns a success
record whose price is the decimal string of that integer, with
currency `JPY` and no error. -/
theorem c9_csv_nav_row (code : String) (d : Date) (pg : MFPage) (acd : String)
    (rows pre rest : List (List String)) (r : List String)
    (hisin : matchIsin code = true)
    (hacd : pg.assocFundCd = some acd)
    (hrows : rows ≠ [])
    (hsplit : rows.drop (headerInfo rows).2.2 = pre ++ r :: rest)
    (hpre : ∀ row ∈ pre, rowMatchesDate (headerInfo rows).1
      (headerInfo rows).2.1 (fmtSlash d) (fmtKanji d) row = false)
    (hlen : max (headerInfo rows).1 (headerInfo rows).2.1 < r.length)
    (hdate : pyStrip (r.getD (headerInfo rows).1 "") = fmtSlash d ∨
             pyStrip (r.getD (headerInfo rows).1 "") = fmtKanji d)
    (hdig : pyIsDigit (pyStrip (stripCommas (r.getD (headerInfo rows).2.1 ""))) = true) :
    fetch_japanese_mutual_fund code d ⟨.ok (200, pg), .ok (200, some rows)⟩ =
      (.ok { name := fundNameOf code pg.title,
             price := pyIntStr (digitsVal
               (pyStrip (stripCommas (r.getD (headerInfo rows).2.1 ""))).data),
             currency := "JPY", error := none }, 2) := by
  have hscan : scanRows (headerInfo rows).1 (headerInfo rows).2.1
      (fmtSlash d) (fmtKanji d) (rows.drop (headerInfo rows).2.2) =
      some (navValOf (headerInfo rows).2.1 r) := by
    rw [hsplit]
    refine scanRows_append_first _ _ _ _ _ _ _ hpre ?_
    simp only [rowMatchesDate, Bool.and_eq_true, decide_eq_true_eq,
      Bool.or_eq_true, beq_iff_eq]
    exact ⟨⟨hlen, hdate⟩, hdig⟩
  have hempty : rows.isEmpty = false := by
    cases rows with
    | nil => exact absurd rfl hrows
    | cons a b => rfl
  simp [fetch_japanese_mutual_fund, hisin, hacd, hempty, hscan, navValOf]

/-- Witness for C9: the spec scenario — header row then a row for
2024/01/15 with NAV cell `12,345` — yields price `12345`, currency
`JPY`, no error. -/
theorem c9_witness :
    fetch_japanese_mutual_fund "JP1234567890" ⟨2024, 1, 15⟩
        ⟨.ok (200, ⟨none, some "12345678", []⟩),
         .ok (200, some [["年月日", "基準価額"], ["2024/01/15", "12,345"]])⟩ =
      (.ok { name := "投資信託 JP1234567890", price := "12345",
             currency := "JPY", error := none }, 2) := by
  have h := c9_csv_nav_row "JP1234567890" ⟨2024, 1, 15⟩
    ⟨none, some "12345678", []⟩ "12345678"
    [["年月日", "基準価額"], ["2024/01/15", "12,345"]]
    [] [] ["2024/01/15", "12,345"]
    (by decide) rfl (by decide) (by decide) (by simp)
    (by decide) (Or.inl (by decide)) (by decide)
  exact h

/-! ## Round-trip facts about the decimal strings the adapters emit -/

theorem digitChar_toNat {k : Nat} (h : k < 10) : (digitChar k).toNat = 48 + k := by
  interval_cases k <;> decide

theorem digitChar_isDigit {k : Nat} (h : k < 10) : (digitChar k).isDigit = true := by
  interval_cases k <;> decide

theorem digitChar_ne_dot {k : Nat} (h : k < 10) : (digitChar k == '.') = false := by
  interval_cases k <;> decide

theorem digitsVal_append_singleton (cs : List Char) (c : Char) :
    digitsVal (cs ++ [c]) = 10 * digitsVal cs + (c.toNat - 48) := by
  simp [digitsVal, List.foldl_append]

theorem toDigitsAux_spec : ∀ fuel n, n < fuel →
    digitsVal (toDigitsAux fuel n).reverse = n ∧
    toDigitsAux fuel n ≠ [] ∧
    ∀ c ∈ toDigitsAux fuel n, c.isDigit = true := by
  intro fuel
  induction fuel with
  | zero => intro n h; omega
  | succ f ih =>
    intro n h
    by_cases h10 : n < 10
    · refine ⟨?_, by simp [toDigitsAux, h10], ?_⟩
      · simp [toDigitsAux, h10, digitsVal, digitChar_toNat h10]
      · intro c hc
        simp [toDigitsAux, h10] at hc
        subst hc
        exact digitChar_isDigit h10
    · have hdiv : n / 10 < f := by omega
      obtain ⟨ihv, ihne, ihd⟩ := ih (n / 10) hdiv
      have hcons : toDigitsAux (f + 1) n =
          digitChar (n % 10) :: toDigitsAux f (n / 10) := by
        simp [toDigitsAux, h10]
      refine ⟨?_, by simp [hcons], ?_⟩
      · rw [hcons, List.reverse_cons, digitsVal_append_singleton, ihv,
          digitChar_toNat (by omega)]
        omega
      · intro c hc
        rw [hcons] at hc
        rcases List.mem_cons.mp hc with hc | hc
        · subst hc; exact digitChar_isDigit (by omega)
        · exact ihd c hc

theorem pyIntStr_data_ne_nil (n : Nat) : (pyIntStr n).data ≠ [] := by
  obtain ⟨_, hne, _⟩ := toDigitsAux_spec (n + 1) n (by omega)
  simpa [pyIntStr] using fun h => hne (List.reverse_eq_nil_iff.mp h)

theorem pyIntStr_data_digits (n : Nat) :
    ∀ c ∈ (pyIntStr n).data, c.isDigit = true := by
  obtain ⟨_, _, hd⟩ := toDigitsAux_spec (n + 1) n (by omega)
  intro c hc
  exact hd c (List.mem_reverse.mp (by simpa [pyIntStr] using hc))

theorem digitsVal_pyIntStr (n : Nat) : digitsVal (pyIntStr n).data = n := by
  obtain ⟨hv, _, _⟩ := toDigitsAux_spec (n + 1) n (by omega)
  simpa [pyIntStr] using hv

theorem splitDot_no_dot (cs : List Char) (h : ∀ c ∈ cs, c ≠ '.') :
    splitDot cs = (cs, []) := by
  induction cs with
  | nil => rfl
  | cons c cs ih =>
    have hc := h c (List.mem_cons_self _ _)
    simp [splitDot, hc, ih (fun x hx => h x (List.mem_cons_of_mem _ hx))]

theorem splitDot_append_dot (xs ys : List Char) (h : ∀ c ∈ xs, c ≠ '.') :
    splitDot (xs ++ '.' :: ys) = (xs, '.' :: ys) := by
  induction xs with
  | nil => simp [splitDot]
  | cons c cs ih =>
    have hc := h c (List.mem_cons_self _ _)
    simp [splitDot, hc, ih (fun x hx => h x (List.mem_cons_of_mem _ hx))]

theorem isEmpty_false_of_ne_nil {α : Type} {l : List α} (h : l ≠ []) :
    l.isEmpty = false := by
  cases l with
  | nil => exact absurd rfl h
  | cons a t => rfl

theorem isDigit_ne_dot {c : Char} (h : c.isDigit = true) : c ≠ '.' := by
  intro hc
  rw [hc] at h
  simp [Char.isDigit] at h

theorem parseNatDigits_of_digits {cs : List Char} (hne : cs ≠ [])
    (hd : ∀ c ∈ cs, c.isDigit = true) :
    parseNatDigits cs = some (digitsVal cs) := by
  have hall : cs.all Char.isDigit = true := List.all_eq_true.mpr hd
  simp [parseNatDigits, isEmpty_false_of_ne_nil hne, hall]

theorem parseDecimal_pyIntStr (n : Nat) :
    parseDecimal (pyIntStr n) = some (n : ℚ) := by
  have hnd : ∀ c ∈ (pyIntStr n).data, c ≠ '.' :=
    fun c hc => isDigit_ne_dot (pyIntStr_data_digits n c hc)
  unfold parseDecimal
  rw [splitDot_no_dot _ hnd]
  simp [parseDecimalAux,
    parseNatDigits_of_digits (pyIntStr_data_ne_nil n) (pyIntStr_data_digits n),
    digitsVal_pyIntStr]

theorem parsesPos_pyIntStr {n : Nat} (h : 0 < n) :
    parsesPos (pyIntStr n) = true := by
  simp only [parsesPos, parseDecimal_pyIntStr]
  simp
  exact_mod_cast h

theorem parseNatDigits_pad2 {m : Nat} (h : m < 100) :
    parseNatDigits (pad2 m) = some m := by
  have h10 : m / 10 < 10 := by omega
  have h1 : m % 10 < 10 := by omega
  simp [parseNatDigits, pad2, digitChar_isDigit h10, digitChar_isDigit h1,
    digitsVal, digitChar_toNat h10, digitChar_toNat h1]
  omega

theorem parseDecimal_renderCents (n : Nat) :
    parseDecimal ⟨renderCents n⟩ = some ((n : ℚ) / 100) := by
  have hnd : ∀ c ∈ (pyIntStr (n / 100)).data, c ≠ '.' :=
    fun c hc => isDigit_ne_dot (pyIntStr_data_digits _ c hc)
  have h100 : n % 100 < 100 := by omega
  have h10 : n % 100 / 10 < 10 := by omega
  have h1 : n % 100 % 10 < 10 := by omega
  have hany : (pad2 (n % 100)).any (fun c => c == '.') = false := by
    simp [pad2, digitChar_ne_dot h10, digitChar_ne_dot h1]
  have hlen : (pad2 (n % 100)).length = 2 := rfl
  unfold parseDecimal renderCents
  rw [show (String.mk ((pyIntStr (n / 100)).data ++ '.' :: pad2 (n % 100))).data =
    (pyIntStr (n / 100)).data ++ '.' :: pad2 (n % 100) from rfl]
  rw [splitDot_append_dot _ _ hnd]
  simp only [parseDecimalAux, hany, Bool.false_eq_true, if_false]
  rw [parseNatDigits_of_digits (pyIntStr_data_ne_nil _) (pyIntStr_data_digits _),
    digitsVal_pyIntStr, parseNatDigits_pad2 h100, hlen]
  have hmod : (100 : ℚ) * ((n / 100 : Nat) : ℚ) + ((n % 100 : Nat) : ℚ) = (n : ℚ) := by
    exact_mod_cast congrArg (fun k : Nat => (k : ℚ)) (Nat.div_add_mod n 100)
  have h100q : (10 : ℚ) ^ 2 = 100 := by norm_num
  rw [h100q]
  field_simp
  linarith

theorem roundHalfEven_ge_one {q : ℚ} (h : 1 ≤ q) : 1 ≤ roundHalfEven q := by
  have hf : 1 ≤ ⌊q⌋ := Int.le_floor.mpr (by exact_mod_cast h)
  unfold roundHalfEven
  split_ifs <;> omega

theorem parsesPos_formatFixed2 {q : ℚ} (h : 1 / 100 ≤ q) :
    parsesPos (formatFixed2 q) = true := by
  have h1 : (1 : ℚ) ≤ 100 * q := by linarith
  have hn : 1 ≤ roundHalfEven (100 * q) := roundHalfEven_ge_one h1
  have habs : 1 ≤ (roundHalfEven (100 * q)).natAbs := by omega
  unfold formatFixed2
  rw [if_neg (by omega)]
  simp only [parsesPos, parseDecimal_renderCents]
  have : (0 : ℚ) < ((roundHalfEven (100 * q)).natAbs : ℚ) / 100 := by
    apply div_pos _ (by norm_num)
    exact_mod_cast habs
  simp [this]

/-! ## Record shape invariants (claim C3) -/

/-- Shape invariant asserted by the spec: an error record carries the
sentinels, an error-free record carries a positive decimal price and
currency `JPY` or `USD`. -/
def recordWF (r : PriceRecord) : Prop :=
  (r.error.isSome = true → r.price = "—" ∧ r.currency = "—") ∧
  (r.error = none →
    parsesPos r.price = true ∧ (r.currency = "JPY" ∨ r.currency = "USD"))

/-- Amended shape invariant: as `recordWF`, except that the latest-NAV
fallback record may carry its warning error together with a real
positive `JPY` price. -/
def recordWFA (r : PriceRecord) : Prop :=
  (r.error = none →
    parsesPos r.price = true ∧ (r.currency = "JPY" ∨ r.currency = "USD")) ∧
  (r.error.isSome = true →
    (r.price = "—" ∧ r.currency = "—") ∨
    (r.error = some latestNavWarning ∧ r.currency = "JPY" ∧
     parsesPos r.price = true))

/-- C3 counterexample: the latest-NAV fallback produces a record with
an error present and a non-sentinel price (`500`) and currency
(`JPY`), violating the claimed invariant. -/
theorem c3_counterexample :
    (fetch_japanese_mutual_fund "JP1234567890" ⟨2024, 1, 15⟩
        ⟨.ok (200, ⟨none, none, ["500"]⟩), .ok (200, none)⟩).1 =
      .ok { name := "投資信託 JP1234567890", price := "500",
            currency := "JPY", error := some latestNavWarning } ∧
    ¬ recordWF { name := "投資信託 JP1234567890", price := "500",
                 currency := "JPY", error := some latestNavWarning } := by
  constructor
  · rfl
  · intro hwf
    have h := (hwf.1 (by rfl)).1
    exact absurd h (by decide)

theorem recordWFA_sentinel (nm msg : String) :
    recordWFA { name := nm, price := "—", currency := "—",
                error := some msg } := by
  constructor
  · intro h; simp at h
  · intro _; exact Or.inl ⟨rfl, rfl⟩

theorem recordWFA_latest_nav (pg : MFPage) (fn : String) :
    recordWFA (fetch_latest_nav_from_page pg fn) := by
  have hfail : recordWFA (navFailRecord fn) := recordWFA_sentinel _ _
  rcases hnp : pg.navPatterns with _ | ⟨p, rest⟩
  · simp only [fetch_latest_nav_from_page, hnp]
    exact hfail
  · simp only [fetch_latest_nav_from_page, hnp]
    by_cases hdig : pyIsDigit (pyStrip (stripCommas p)) = true
    · rw [if_pos hdig]
      by_cases hrange : (decide (100 < digitsVal (pyStrip (stripCommas p)).data) &&
          decide (digitsVal (pyStrip (stripCommas p)).data < 1000000)) = true
      · rw [if_pos hrange]
        simp only [Bool.and_eq_true, decide_eq_true_eq] at hrange
        constructor
        · intro h; simp at h
        · intro _
          exact Or.inr ⟨rfl, rfl, parsesPos_pyIntStr (by omega)⟩
      · rw [if_neg hrange]
        exact hfail
    · rw [if_neg hdig]
      exact hfail

theorem recordWFA_jp_stock (histResult : Except String (List ℚ))
    (infoResult : Except String TickerInfo) (code : String)
    (hhist : ∀ l, histResult = .ok l → ∀ q ∈ l, 1 / 100 ≤ q) :
    ∀ r, (fetch_japanese_stock histResult infoResult code).1 = .ok r →
      recordWFA r := by
  intro r h
  rcases histResult with e | l
  · simp [fetch_japanese_stock] at h
  · rcases l with _ | ⟨cl, rest⟩
    · simp only [fetch_japanese_stock] at h
      injection h with h
      subst h
      exact recordWFA_sentinel _ _
    · simp only [fetch_japanese_stock] at h
      injection h with h
      subst h
      constructor
      · intro _
        exact ⟨parsesPos_formatFixed2
          (hhist _ rfl cl (List.mem_cons_self _ _)), Or.inl rfl⟩
      · intro hs; simp at hs

theorem recordWFA_us_stock (histResult : Except String (List ℚ))
    (infoResult : Except String TickerInfo) (code : String)
    (hhist : ∀ l, histResult = .ok l → ∀ q ∈ l, 1 / 100 ≤ q) :
    ∀ r, (fetch_us_stock histResult infoResult code).1 = .ok r →
      recordWFA r := by
  intro r h
  rcases histResult with e | l
  · simp [fetch_us_stock] at h
  · rcases l with _ | ⟨cl, rest⟩
    · simp only [fetch_us_stock] at h
      injection h with h
      subst h
      exact recordWFA_sentinel _ _
    · simp only [fetch_us_stock] at h
      injection h with h
      subst h
      constructor
      · intro _
        exact ⟨parsesPos_formatFixed2
          (hhist _ rfl cl (List.mem_cons_self _ _)), Or.inr rfl⟩
      · intro hs; simp at hs

theorem recordWFA_mf (mfCode : String) (d : Date) (env : MFEnv)
    (hcsv : ∀ st rows, env.csvFetch = .ok (st, some rows) → ∀ row ∈ rows,
      pyIsDigit (pyStrip (stripCommas (row.getD (headerInfo rows).2.1 ""))) = true →
      0 < digitsVal (pyStrip (stripCommas (row.getD (headerInfo rows).2.1 ""))).data) :
    ∀ r, (fetch_japanese_mutual_fund mfCode d env).1 = .ok r → recordWFA r := by
  intro r h
  unfold fetch_japanese_mutual_fund at h
  rcases hb : matchIsin mfCode with _ | _
  · simp only [hb, Bool.not_false, if_true] at h
    injection h with h
    subst h
    exact recordWFA_sentinel _ _
  · simp only [hb, Bool.not_true, Bool.false_eq_true, if_false] at h
    rcases hpf : env.pageFetch with ne | ⟨status, pg⟩
    · simp only [hpf] at h
      rcases ne with _ | m | m
      · injection h with h; subst h; exact recordWFA_sentinel _ _
      · injection h with h; subst h; exact recordWFA_sentinel _ _
      · simp at h
    · simp only [hpf] at h
      by_cases hst : (status != 200) = true
      · rw [if_pos hst] at h
        injection h with h
        subst h
        exact recordWFA_sentinel _ _
      · rw [if_neg hst] at h
        rcases hacd : pg.assocFundCd with _ | acd
        · simp only [hacd] at h
          injection h with h
          subst h
          exact recordWFA_latest_nav _ _
        · simp only [hacd] at h
          rcases hcf : env.csvFetch with ne | ⟨cstatus, body⟩
          · simp only [hcf] at h
            rcases ne with _ | m | m
            · injection h with h; subst h; exact recordWFA_sentinel _ _
            · injection h with h; subst h; exact recordWFA_sentinel _ _
            · simp at h
          · simp only [hcf] at h
            by_cases hcst : (cstatus != 200) = true
            · rw [if_pos hcst] at h
              injection h with h
              subst h
              exact recordWFA_latest_nav _ _
            · rw [if_neg hcst] at h
              rcases body with _ | rows
              · injection h with h
                subst h
                exact recordWFA_latest_nav _ _
              · simp only [] at h
                by_cases hemp : rows.isEmpty = true
                · rw [if_pos hemp] at h
                  injection h with h
                  subst h
                  exact recordWFA_latest_nav _ _
                · rw [if_neg hemp] at h
                  rcases hscan : scanRows (headerInfo rows).1 (headerInfo rows).2.1
                      (fmtSlash d) (fmtKanji d) (rows.drop (headerInfo rows).2.2)
                    with _ | v
                  · simp only [hscan] at h
                    injection h with h
                    subst h
                    exact recordWFA_sentinel _ _
                  · simp only [hscan] at h
                    injection h with h
                    subst h
                    obtain ⟨row, hrow, hm, hv⟩ :=
                      scanRows_mem _ _ _ _ _ _ hscan
                    have hrowmem : row ∈ rows := List.drop_subset _ _ hrow
                    have hdig : pyIsDigit (pyStrip (stripCommas
                        (row.getD (headerInfo rows).2.1 ""))) = true := by
                      simp only [rowMatchesDate, Bool.and_eq_true] at hm
                      exact hm.2
                    have hpos : 0 < v := by
                      rw [hv]
                      exact hcsv _ _ (by rw [hcf]) row hrowmem hdig
                    constructor
                    · intro _
                      exact ⟨parsesPos_pyIntStr hpos, Or.inl rfl⟩
                    · intro hs; simp at hs

theorem loopFrom_res_cases (tb : Nat → Except String PriceRecord × Nat) :
    ∀ fuel k r, (loopFrom tb k fuel).res = some r →
      (∃ j c, tb j = (.ok r, c)) ∨ r = retriesFailRecord := by
  intro fuel
  induction fuel with
  | zero => intro k r h; simp [loopFrom] at h
  | succ f ih =>
    intro k r h
    rcases he : tb k with ⟨e | rr, c⟩
    · simp only [loopFrom, he] at h
      by_cases hcond : k < maxRetries - 1
      · rw [if_pos hcond] at h
        exact ih (k + 1) r h
      · rw [if_neg hcond] at h
        simp only [Option.some_inj] at h
        exact Or.inr h.symm
    · simp only [loopFrom, he, Option.some_inj] at h
      exact Or.inl ⟨k, c, by rw [he, h]⟩

theorem fetch_price_res_cases (t : String)
    (tb : Nat → Except String PriceRecord × Nat) (r : PriceRecord)
    (h : (fetch_price t tb).res = some r) :
    (∃ j c, tb j = (.ok r, c)) ∨ r = retriesFailRecord ∨
    r = unknownTypeRecord := by
  unfold fetch_price at h
  rcases loopFrom_res_cases _ maxRetries 0 r h with ⟨j, c, hj⟩ | hr
  · by_cases hk : knownSecurityType t = true
    · rw [if_pos hk] at hj
      exact Or.inl ⟨j, c, hj⟩
    · rw [if_neg hk] at hj
      have hu : unknownTypeRecord = r := by
        have := congrArg Prod.fst hj
        simpa using this
      exact Or.inr (Or.inr hu.symm)
  · exact Or.inr (Or.inl hr)

/-- C3 (amended): every record an adapter path returns, and every
record `fetch_price` synthesizes, satisfies the amended invariant
`recordWFA` — error-free records parse to a positive decimal (given
that upstream close prices are at least 1/100 and CSV NAV digit cells
denote positive integers) with currency `JPY` or `USD`; error records
carry sentinel price and currency, except the latest-NAV fallback
record, which carries its warning together with a real positive `JPY`
price.  Every record `fetch_price` returns is an adapter record or one
of the two synthesized records. -/
theorem c3_amended (histResult histResult2 : Except String (List ℚ))
    (infoResult infoResult2 : Except String TickerInfo)
    (code code2 mfCode : String) (d : Date) (env : MFEnv)
    (hhist : ∀ l, histResult = .ok l → ∀ q ∈ l, 1 / 100 ≤ q)
    (hhist2 : ∀ l, histResult2 = .ok l → ∀ q ∈ l, 1 / 100 ≤ q)
    (hcsv : ∀ st rows, env.csvFetch = .ok (st, some rows) → ∀ row ∈ rows,
      pyIsDigit (pyStrip (stripCommas (row.getD (headerInfo rows).2.1 ""))) = true →
      0 < digitsVal (pyStrip (stripCommas (row.getD (headerInfo rows).2.1 ""))).data) :
    (∀ r, (fetch_japanese_stock histResult infoResult code).1 = .ok r →
      recordWFA r) ∧
    (∀ r, (fetch_us_stock histResult2 infoResult2 code2).1 = .ok r →
      recordWFA r) ∧
    (∀ r, (fetch_japanese_mutual_fund mfCode d env).1 = .ok r → recordWFA r) ∧
    recordWFA retriesFailRecord ∧ recordWFA unknownTypeRecord ∧
    (∀ t tb r, (fetch_price t tb).res = some r →
      (∃ j c, tb j = (.ok r, c)) ∨ r = retriesFailRecord ∨
      r = unknownTypeRecord) :=
  ⟨recordWFA_jp_stock _ _ _ hhist, recordWFA_us_stock _ _ _ hhist2,
   recordWFA_mf _ _ _ hcsv, recordWFA_sentinel _ _, recordWFA_sentinel _ _,
   fetch_price_res_cases⟩

/-- Witness for C3 (amended): the Japanese-stock success record for a
close of 25 satisfies the amended invariant. -/
theorem c3_amended_witness :
    recordWFA { name := "7203.T", price := formatFixed2 (25 : ℚ),
                currency := "JPY", error := none } :=
  (c3_amended (.ok [25]) (.ok []) (.error "x") (.error "x")
    "7203.T" "VTI" "JP1234567890" ⟨2024, 1, 15⟩
    ⟨.ok (200, ⟨none, none, []⟩), .ok (200, none)⟩
    (fun l hl => by
      injection hl with hl
      subst hl
      intro q hq
      rcases List.mem_singleton.mp hq with rfl
      norm_num)
    (fun l hl => by
      injection hl with hl
      subst hl
      intro q hq
      simp at hq)
    (fun st rows hst => by
      exfalso
      injection hst with hst
      exact absurd (congrArg Prod.snd hst) (by simp))).1
    { name := "7203.T", price := formatFixed2 (25 : ℚ),
      currency := "JPY", error := none } rfl
